import Mathlib

/-!
Verification development for the FI planner's core numeric engine
(src/app.py): the year-by-year compounding simulation
(`compound_schedule`), the horizon-aware safe-withdrawal-rate helper
(`adjusted_swr_for_horizon`), the regular-FI age solver
(`compute_fi_age_horizon`) and the barista/bridge FI age solver
(`compute_barista_fi_age_bridge`).

Monetary amounts are modelled as rationals (exact arithmetic standing in
for Python floats), except for the horizon-adjusted SWR path, which is
modelled over the reals because it takes a square root.  Python's
"return a tuple of all Nones" failure convention is modelled as `none`
of an `Option`-valued result; Python's `raise ValueError` in
`compound_schedule` is modelled the same way.
-/

/-- One output record of `compound_schedule` (one simulated year), with the
fields of the row dict built at src/app.py lines 70-83. -/
structure YearRow where
  year : ℕ
  balance : ℚ
  cumContributions : ℚ
  contribYear : ℚ
  investGrowth : ℚ
  investGrowthYear : ℚ
  expenseDrag : ℚ
  netGrowth : ℚ
  annualExpense : ℚ
  cumulativeExpense : ℚ
deriving DecidableEq

/-- The running accumulators of `compound_schedule` (src/app.py lines 29-33). -/
structure SimState where
  balance : ℚ
  cumContrib : ℚ
  cumInvestGrowth : ℚ
  cumExpenseDrag : ℚ
  cumExpenseAbs : ℚ
deriving DecidableEq

/-- One iteration of the monthly loop of `compound_schedule`
(src/app.py lines 47-54), acting on (balance, cum_contrib, contrib_year):
the month's contribution is added to the balance, then growth at rate/12
is applied to the post-contribution balance. -/
def monthStep (r c : ℚ) (s : ℚ × ℚ × ℚ) : ℚ × ℚ × ℚ :=
  let b1 := s.1 + c
  let growth_month := b1 * (r / 12)
  (b1 + growth_month, s.2.1 + c, s.2.2 + c)

/-- The balance component of one monthly sub-step: contribution `c` added
first, growth at `r/12` applied to the post-contribution balance. -/
def monthBalance (r c : ℚ) (b : ℚ) : ℚ :=
  (b + c) + (b + c) * (r / 12)

/-- One year of `compound_schedule` (src/app.py lines 43-83): twelve
monthly sub-steps, then the year's expense subtracted once at year end,
with growth and contribution accumulated separately. Returns the updated
accumulators and the year's output record. -/
def yearStep (r c e : ℚ) (yearIdx : ℕ) (st : SimState) : SimState × YearRow :=
  let balance_start_year := st.balance
  let m := (monthStep r c)^[12] (st.balance, st.cumContrib, 0)
  let balance_before_expense := m.1
  let cumContrib2 := m.2.1
  let contrib_year := m.2.2
  let market_growth_year := balance_before_expense - (balance_start_year + contrib_year)
  let cumInvestGrowth2 := st.cumInvestGrowth + market_growth_year
  let expense_drag_year := -e
  let cumExpenseDrag2 := st.cumExpenseDrag + expense_drag_year
  let newBalance := balance_before_expense - e
  let cumExpenseAbs2 := st.cumExpenseAbs + e
  let net_growth_cum := cumInvestGrowth2 + cumExpenseDrag2
  (⟨newBalance, cumContrib2, cumInvestGrowth2, cumExpenseDrag2, cumExpenseAbs2⟩,
   ⟨yearIdx + 1, newBalance, cumContrib2, contrib_year, cumInvestGrowth2,
    market_growth_year, cumExpenseDrag2, net_growth_cum, e, cumExpenseAbs2⟩)

/-- The per-year rate selection of `compound_schedule`
(src/app.py lines 38-41): the per-year list when given, else the single
annual rate, else zero. In range the list lookup agrees with Python
indexing (the length of the list is validated up front). -/
def rateFor (annual_rate : Option ℚ) (annual_rate_by_year : Option (List ℚ)) (i : ℕ) : ℚ :=
  match annual_rate_by_year with
  | some l => l.getD i 0
  | none =>
    match annual_rate with
    | some r => r
    | none => 0

/-- The main year loop of `compound_schedule` (src/app.py lines 37-83):
`k` years remain, `idx` is the current year index, `st` the accumulators. -/
def scheduleRows (contrib expense : List ℚ) (rate : ℕ → ℚ) :
    ℕ → ℕ → SimState → List YearRow
  | 0, _, _ => []
  | k + 1, idx, st =>
    let p := yearStep (rate idx) (contrib.getD idx 0) (expense.getD idx 0) idx st
    p.2 :: scheduleRows contrib expense rate k (idx + 1) p.1

/-- Embedding of `compound_schedule` (src/app.py lines 10-85). A per-year
rate list of the wrong length raises ValueError in the source, modelled
as `none`; otherwise the full ordered list of year records is returned. -/
def compound_schedule (start_balance : ℚ) (years : ℕ)
    (monthly_contrib_by_year annual_expense_by_year : List ℚ)
    (annual_rate : Option ℚ) (annual_rate_by_year : Option (List ℚ)) :
    Option (List YearRow) :=
  match annual_rate_by_year with
  | some l =>
    if l.length = years then
      some (scheduleRows monthly_contrib_by_year annual_expense_by_year
        (rateFor annual_rate annual_rate_by_year) years 0 ⟨start_balance, 0, 0, 0, 0⟩)
    else none
  | none =>
    some (scheduleRows monthly_contrib_by_year annual_expense_by_year
      (rateFor annual_rate annual_rate_by_year) years 0 ⟨start_balance, 0, 0, 0, 0⟩)

/-- Ending balance of a simulation: the last recorded balance, or the
starting balance when no years were simulated. -/
def finalBalance (start_balance : ℚ) (rows : List YearRow) : ℚ :=
  (rows.map YearRow.balance).getLastD start_balance

/-- Start-of-year balances of a record sequence: the starting balance
followed by each year's end balance (each year starts where the previous
year ended). -/
def prevBalances (start_balance : ℚ) (rows : List YearRow) : List ℚ :=
  start_balance :: rows.map YearRow.balance

/-- One trajectory row as consumed by the barista solver: the Age, Year
and Balance columns of the dataframe produced by `compound_schedule`
plus the Age column added in main (src/app.py lines 168-171). -/
structure BridgeRow where
  age : ℤ
  year : ℕ
  balance : ℚ
deriving DecidableEq

/-- Successful output of `compute_barista_fi_age_bridge`
(src/app.py lines 255-263); the source's all-None return is `none`. -/
structure BaristaResult where
  age : ℤ
  balStart : ℚ
  balFullFi : ℚ
  fiTarget : ℚ
  yearsBridge : ℤ
  pvBridgeNeed : ℚ
deriving DecidableEq

/-- Real-dollar conversion of one trajectory balance
(src/app.py lines 173-179). -/
def realBalance (show_real : Bool) (infl_rate : ℚ) (r : BridgeRow) : ℚ :=
  if show_real = true ∧ 0 < infl_rate then r.balance
  else if 0 < infl_rate then r.balance / (1 + infl_rate) ^ r.year
  else r.balance

/-- The `balance_real_by_age` dictionary of the barista solver
(src/app.py lines 167-181): built by a fold over the rows, a later row
with the same age overwriting an earlier one, exactly as the Python
dict assignment does. -/
def balMap (df : List BridgeRow) (show_real : Bool) (infl_rate : ℚ) : ℤ → Option ℚ :=
  df.foldl
    (fun m r => fun a => if a = r.age then some (realBalance show_real infl_rate r) else m a)
    (fun _ => none)

/-- The bridge tax-rate clamp (src/app.py line 165):
t = max(0.0, min(tax_rate_bridge, 0.7)). -/
def clampBridgeTax (tax_rate_bridge : ℚ) : ℚ :=
  max 0 (min tax_rate_bridge (7 / 10))

/-- Per-year real spend drawn from the portfolio during the bridge
(src/app.py lines 221-224): the gap max(S - B, 0) while still working
part time, the full spend S afterwards. -/
def spendFromPortfolio (S B : ℚ) (age effEnd : ℤ) : ℚ :=
  if age ≤ effEnd then max (S - B) 0 else S

/-- Withdrawal gross-up (src/app.py lines 229-232): when the tax rate is
positive the withdrawal is grossed up so the net received equals the
need, otherwise the need is withdrawn as is. -/
def grossUpWithdrawal (total_real_spend t : ℚ) : ℚ :=
  if 0 < t then total_real_spend / (1 - t) else total_real_spend

/-- The inner bridge-year loop of the barista solver for one candidate
age (src/app.py lines 206-240): `k` bridge years remain, `age` is the
age being simulated, carrying the balance, the present value of bridge
needs and the discount factor. Returns `none` when the rate index falls
out of range or the balance would go negative (the source sets ok=False
and breaks), else the final balance and present value. -/
def bridgeLoop (rates : List ℚ) (current_age : ℤ) (infl_rate S B extra_health t : ℚ)
    (effEnd : ℤ) : ℕ → ℤ → ℚ → ℚ → ℚ → Option (ℚ × ℚ)
  | 0, _, bal, pv, _ => some (bal, pv)
  | k + 1, age, bal, pv, disc =>
    let idx := age - current_age
    if idx < 0 ∨ (rates.length : ℤ) ≤ idx then none
    else
      let r_nominal := rates.getD idx.toNat 0
      let real_return := if 0 < infl_rate then (1 + r_nominal) / (1 + infl_rate) - 1 else r_nominal
      let total_real_spend := spendFromPortfolio S B age effEnd + max extra_health 0
      let pv2 := pv + total_real_spend / disc
      let bal2 := bal - grossUpWithdrawal total_real_spend t
      if bal2 < 0 then none
      else bridgeLoop rates current_age infl_rate S B extra_health t effEnd
        k (age + 1) (bal2 * (1 + real_return)) pv2 (disc * (1 + real_return))

/-- The candidate-age scan of the barista solver (src/app.py
lines 198-250): `k` candidate ages remain, `a` is the current candidate;
a candidate missing from the balance map, failing its bridge simulation
or ending below the target is skipped, and the first success is
returned. -/
def candLoop (bmap : ℤ → Option ℚ) (rates : List ℚ) (current_age : ℤ)
    (infl_rate S B extra_health t : ℚ) (effEnd full_fi_age : ℤ) (fi_target_real : ℚ) :
    ℕ → ℤ → Option BaristaResult
  | 0, _ => none
  | k + 1, a =>
    match bmap a with
    | none => candLoop bmap rates current_age infl_rate S B extra_health t effEnd
        full_fi_age fi_target_real k (a + 1)
    | some bal =>
      match bridgeLoop rates current_age infl_rate S B extra_health t effEnd
          ((full_fi_age - a).toNat) a bal 0 1 with
      | none => candLoop bmap rates current_age infl_rate S B extra_health t effEnd
          full_fi_age fi_target_real k (a + 1)
      | some pr =>
        if fi_target_real ≤ pr.1 then
          some ⟨a, bal, pr.1, fi_target_real, full_fi_age - a, pr.2⟩
        else candLoop bmap rates current_age infl_rate S B extra_health t effEnd
          full_fi_age fi_target_real k (a + 1)

/-- Embedding of `compute_barista_fi_age_bridge` (src/app.py
lines 142-263): guard degenerate inputs, clamp the bridge tax rate,
build the real-balance map, then scan candidate ages from
current_age + 1 through full_fi_age and return the first candidate whose
projected balance at full FI age meets the fixed-SWR target. -/
def compute_barista_fi_age_bridge (df : List BridgeRow) (current_age : ℤ)
    (fi_annual_spend_today barista_income_today infl_rate : ℚ) (show_real : Bool)
    (annual_rates_by_year_full : List ℚ) (base_30yr_swr : ℚ)
    (barista_end_age full_fi_age : ℤ) (tax_rate_bridge extra_health_today : ℚ) :
    Option BaristaResult :=
  let S := fi_annual_spend_today
  let B := barista_income_today
  if S ≤ 0 ∨ base_30yr_swr ≤ 0 then none
  else
    let t := clampBridgeTax tax_rate_bridge
    let bmap := balMap df show_real infl_rate
    let fi_target_real := S / base_30yr_swr
    let start_age_candidate := current_age + 1
    if full_fi_age ≤ start_age_candidate then none
    else
      let effEnd := min barista_end_age (full_fi_age - 1)
      if effEnd < start_age_candidate then none
      else candLoop bmap annual_rates_by_year_full current_age infl_rate S B
        extra_health_today t effEnd full_fi_age fi_target_real
        ((full_fi_age + 1 - start_age_candidate).toNat) start_age_candidate

/-- Modelled from the spec, for comparison with the source: the per-year
gross-up rate the specification describes, using a separate
early-withdrawal tax/penalty rate below age 60 and the flat rate at 60
or above. No such age threshold or early rate exists in the source. -/
def bridgeRateSpecModel (flat early : ℚ) (age : ℤ) : ℚ :=
  if age < 60 then early else flat

/-- Modelled from the spec, for comparison with the source: the bridge
year loop as the specification words it, identical to `bridgeLoop`
except that the gross-up in each year uses `bridgeRateSpecModel`, the
early-withdrawal rate below age 60 and the flat rate from 60 on. -/
def bridgeLoopSpecModel (rates : List ℚ) (current_age : ℤ)
    (infl_rate S B extra_health : ℚ) (flat early : ℚ) (effEnd : ℤ) :
    ℕ → ℤ → ℚ → ℚ → ℚ → Option (ℚ × ℚ)
  | 0, _, bal, pv, _ => some (bal, pv)
  | k + 1, age, bal, pv, disc =>
    let idx := age - current_age
    if idx < 0 ∨ (rates.length : ℤ) ≤ idx then none
    else
      let r_nominal := rates.getD idx.toNat 0
      let real_return := if 0 < infl_rate then (1 + r_nominal) / (1 + infl_rate) - 1 else r_nominal
      let total_real_spend := spendFromPortfolio S B age effEnd + max extra_health 0
      let pv2 := pv + total_real_spend / disc
      let bal2 := bal - grossUpWithdrawal total_real_spend (bridgeRateSpecModel flat early age)
      if bal2 < 0 then none
      else bridgeLoopSpecModel rates current_age infl_rate S B extra_health flat early effEnd
        k (age + 1) (bal2 * (1 + real_return)) pv2 (disc * (1 + real_return))

/-- One trajectory row as consumed by the regular-FI solver: the Age,
Year and Balance columns of the dataframe (src/app.py lines 114-117).
Balances are real here because the solver's required-wealth computation
takes a square root. -/
structure FiRow where
  age : ℤ
  year : ℕ
  balance : ℝ

/-- Successful output of `compute_fi_age_horizon` (src/app.py line 139);
the source's all-None return is `none`. -/
structure FiResult where
  age : ℤ
  portfolio : ℝ
  required : ℝ
  effSwr : ℝ
  horizonYears : ℤ

/-- Embedding of `adjusted_swr_for_horizon` (src/app.py lines 91-94):
the base 30-year rate scaled by sqrt(30 / horizon), the horizon floored
at one year, the result clamped to the band 2.5 percent to 5 percent. -/
noncomputable def adjusted_swr_for_horizon (horizon_years base_30yr_swr : ℝ) : ℝ :=
  max 0.025 (min 0.05 (base_30yr_swr * Real.sqrt (30 / max horizon_years 1)))

/-- Remaining horizon used for one row of the FI scan
(src/app.py line 122): T = max(horizon_end_age - age, 1). -/
def fiHorizon (horizon_end_age : ℤ) (r : FiRow) : ℤ :=
  max (horizon_end_age - r.age) 1

open Classical in
/-- Required wealth for one row of the FI scan (src/app.py
lines 122-129): the spend times the inverse horizon-adjusted SWR, in
today's dollars when the trajectory is real, else inflated to the row's
year. -/
noncomputable def fiRequired (S infl_rate : ℝ) (show_real : Bool) (base_30yr_swr : ℝ)
    (horizon_end_age : ℤ) (r : FiRow) : ℝ :=
  let swr := adjusted_swr_for_horizon ((fiHorizon horizon_end_age r : ℤ) : ℝ) base_30yr_swr
  let multiple := 1 / swr
  if show_real = true ∧ 0 < infl_rate then S * multiple
  else S * (1 + infl_rate) ^ r.year * multiple

/-- The result record built when a row passes the FI test
(src/app.py lines 131-137). -/
noncomputable def mkFiResult (S infl_rate : ℝ) (show_real : Bool) (base_30yr_swr : ℝ)
    (horizon_end_age : ℤ) (r : FiRow) : FiResult :=
  ⟨r.age, r.balance, fiRequired S infl_rate show_real base_30yr_swr horizon_end_age r,
   adjusted_swr_for_horizon ((fiHorizon horizon_end_age r : ℤ) : ℝ) base_30yr_swr,
   fiHorizon horizon_end_age r⟩

/-- A row succeeds in the FI scan when its age is inside the scanned
range and its balance meets or exceeds the required wealth
(src/app.py lines 119-131). -/
def fiOk (S infl_rate : ℝ) (show_real : Bool) (base_30yr_swr : ℝ)
    (horizon_end_age : ℤ) (r : FiRow) : Prop :=
  r.age < horizon_end_age ∧
    fiRequired S infl_rate show_real base_30yr_swr horizon_end_age r ≤ r.balance

open Classical in
/-- The row scan of `compute_fi_age_horizon` (src/app.py lines 114-137):
rows at or past the horizon age are skipped, and the first row whose
balance meets the required wealth is returned. -/
noncomputable def fiScan (S infl_rate : ℝ) (show_real : Bool) (base_30yr_swr : ℝ)
    (horizon_end_age : ℤ) : List FiRow → Option FiResult
  | [] => none
  | r :: rest =>
    if horizon_end_age ≤ r.age then
      fiScan S infl_rate show_real base_30yr_swr horizon_end_age rest
    else if fiRequired S infl_rate show_real base_30yr_swr horizon_end_age r ≤ r.balance then
      some (mkFiResult S infl_rate show_real base_30yr_swr horizon_end_age r)
    else fiScan S infl_rate show_real base_30yr_swr horizon_end_age rest

open Classical in
/-- Embedding of `compute_fi_age_horizon` (src/app.py lines 97-139):
degenerate spend or withdrawal-rate inputs return the all-None result
before any scanning, else the first-match row scan runs. -/
noncomputable def compute_fi_age_horizon (df : List FiRow) (fi_annual_spend_today infl_rate : ℝ)
    (show_real : Bool) (base_30yr_swr : ℝ) (horizon_end_age : ℤ) : Option FiResult :=
  if fi_annual_spend_today ≤ 0 ∨ base_30yr_swr ≤ 0 then none
  else fiScan fi_annual_spend_today infl_rate show_real base_30yr_swr horizon_end_age df

lemma monthStep_iterate (r c : ℚ) :
    ∀ (m : ℕ) (b cc cy : ℚ),
      (monthStep r c)^[m] (b, cc, cy) = ((monthBalance r c)^[m] b, cc + m * c, cy + m * c) := by
  intro m
  induction m with
  | zero => intro b cc cy; simp
  | succ n ih =>
    intro b cc cy
    rw [Function.iterate_succ_apply, Function.iterate_succ_apply]
    have hstep : monthStep r c (b, cc, cy) = (monthBalance r c b, cc + c, cy + c) := rfl
    rw [hstep, ih]
    push_cast
    simp only [Prod.mk.injEq]
    exact ⟨trivial, by ring, by ring⟩

lemma yearStep_spec (r c e : ℚ) (i : ℕ) (st : SimState) :
    (yearStep r c e i st).2.balance = (monthBalance r c)^[12] st.balance - e ∧
    (yearStep r c e i st).2.contribYear = 12 * c ∧
    (yearStep r c e i st).2.investGrowthYear =
      (monthBalance r c)^[12] st.balance - st.balance - 12 * c ∧
    (yearStep r c e i st).2.annualExpense = e ∧
    (yearStep r c e i st).2.year = i + 1 ∧
    (yearStep r c e i st).1.balance = (yearStep r c e i st).2.balance := by
  have hm := monthStep_iterate r c 12 st.balance st.cumContrib 0
  simp only [yearStep, hm]
  norm_num
  ring

lemma scheduleRows_get_spec (contrib expense : List ℚ) (rate : ℕ → ℚ) :
    ∀ (k idx : ℕ) (st : SimState) (i : ℕ) (row : YearRow),
      (scheduleRows contrib expense rate k idx st).get? i = some row →
      row.balance =
        (monthBalance (rate (idx + i)) (contrib.getD (idx + i) 0))^[12]
          ((prevBalances st.balance (scheduleRows contrib expense rate k idx st)).getD i 0)
        - expense.getD (idx + i) 0 ∧
      row.contribYear = 12 * contrib.getD (idx + i) 0 ∧
      row.investGrowthYear =
        (monthBalance (rate (idx + i)) (contrib.getD (idx + i) 0))^[12]
          ((prevBalances st.balance (scheduleRows contrib expense rate k idx st)).getD i 0)
        - (prevBalances st.balance (scheduleRows contrib expense rate k idx st)).getD i 0
        - 12 * contrib.getD (idx + i) 0 ∧
      row.annualExpense = expense.getD (idx + i) 0 ∧
      row.year = idx + i + 1 := by
  intro k
  induction k with
  | zero =>
    intro idx st i row h
    simp [scheduleRows] at h
  | succ n ih =>
    intro idx st i row h
    have hun : scheduleRows contrib expense rate (n + 1) idx st
        = (yearStep (rate idx) (contrib.getD idx 0) (expense.getD idx 0) idx st).2
          :: scheduleRows contrib expense rate n (idx + 1)
            (yearStep (rate idx) (contrib.getD idx 0) (expense.getD idx 0) idx st).1 := rfl
    have hy := yearStep_spec (rate idx) (contrib.getD idx 0) (expense.getD idx 0) idx st
    cases i with
    | zero =>
      rw [hun] at h
      simp only [List.get?_cons_zero, Option.some.injEq] at h
      subst h
      rw [hun]
      simp only [Nat.add_zero, prevBalances, List.getD_cons_zero]
      exact ⟨hy.1, hy.2.1, hy.2.2.1, hy.2.2.2.1, hy.2.2.2.2.1⟩
    | succ j =>
      rw [hun] at h
      simp only [List.get?_cons_succ] at h
      have hrec := ih (idx + 1)
        (yearStep (rate idx) (contrib.getD idx 0) (expense.getD idx 0) idx st).1 j row h
      have hidx : idx + 1 + j = idx + (j + 1) := by omega
      rw [hidx] at hrec
      have hprev :
          (prevBalances
            (yearStep (rate idx) (contrib.getD idx 0) (expense.getD idx 0) idx st).1.balance
            (scheduleRows contrib expense rate n (idx + 1)
              (yearStep (rate idx) (contrib.getD idx 0) (expense.getD idx 0) idx st).1)).getD j 0
          = (prevBalances st.balance
              (scheduleRows contrib expense rate (n + 1) idx st)).getD (j + 1) 0 := by
        rw [hun]
        simp only [prevBalances, List.map_cons, List.getD_cons_succ]
        rw [hy.2.2.2.2.2]
      rw [hprev] at hrec
      exact ⟨hrec.1, hrec.2.1, hrec.2.2.1, hrec.2.2.2.1, hrec.2.2.2.2⟩

lemma compound_schedule_rows {s : ℚ} {N : ℕ} {contrib expense : List ℚ}
    {ar : Option ℚ} {arby : Option (List ℚ)} {rows : List YearRow}
    (h : compound_schedule s N contrib expense ar arby = some rows) :
    rows = scheduleRows contrib expense (rateFor ar arby) N 0 ⟨s, 0, 0, 0, 0⟩ := by
  cases arby with
  | none =>
    simp only [compound_schedule, Option.some.injEq] at h
    exact h.symm
  | some l =>
    simp only [compound_schedule] at h
    by_cases hl : l.length = N
    · rw [if_pos hl] at h
      injection h with h
      exact h.symm
    · rw [if_neg hl] at h
      cases h

/-- C5: for every record produced by `compound_schedule`, the year's end
balance is the twelve-fold iteration of the monthly sub-step (which adds
the month's contribution to the running balance first and then applies
growth at rate/12 to the post-contribution balance) applied to the
start-of-year balance, with the year's annual expense subtracted exactly
once after all twelve sub-steps; the recorded yearly contribution is
twelve monthly contributions and the recorded yearly growth is the
pre-expense balance minus the start balance and the contributions,
accumulated separately from the expense. -/
theorem compound_schedule_monthly_substeps (s : ℚ) (N : ℕ)
    (contrib expense : List ℚ) (ar : Option ℚ) (arby : Option (List ℚ))
    (rows : List YearRow) (i : ℕ) (row : YearRow)
    (h1 : compound_schedule s N contrib expense ar arby = some rows)
    (h2 : rows.get? i = some row) :
    row.balance =
      (monthBalance (rateFor ar arby i) (contrib.getD i 0))^[12]
        ((prevBalances s rows).getD i 0) - expense.getD i 0 ∧
    row.contribYear = 12 * contrib.getD i 0 ∧
    row.investGrowthYear =
      (monthBalance (rateFor ar arby i) (contrib.getD i 0))^[12]
        ((prevBalances s rows).getD i 0) - (prevBalances s rows).getD i 0
      - 12 * contrib.getD i 0 ∧
    row.annualExpense = expense.getD i 0 ∧
    row.year = i + 1 := by
  have hr := compound_schedule_rows h1
  subst hr
  have h := scheduleRows_get_spec contrib expense (rateFor ar arby) N 0 ⟨s, 0, 0, 0, 0⟩ i row h2
  simpa using h

/-- C5 witness: the per-year sub-step structure instantiated on a
concrete one-year simulation. -/
theorem compound_schedule_monthly_substeps_instance :
    compound_schedule 0 1 [0] [0] none none
      = some [⟨1, 0, 0, 0, 0, 0, 0, 0, 0, 0⟩] ∧
    ([(⟨1, 0, 0, 0, 0, 0, 0, 0, 0, 0⟩ : YearRow)].get? 0
      = some ⟨1, 0, 0, 0, 0, 0, 0, 0, 0, 0⟩) ∧
    ((⟨1, 0, 0, 0, 0, 0, 0, 0, 0, 0⟩ : YearRow).balance =
      (monthBalance (rateFor none none 0) (([0] : List ℚ).getD 0 0))^[12]
        ((prevBalances 0 [⟨1, 0, 0, 0, 0, 0, 0, 0, 0, 0⟩]).getD 0 0)
      - ([0] : List ℚ).getD 0 0 ∧
    (⟨1, 0, 0, 0, 0, 0, 0, 0, 0, 0⟩ : YearRow).contribYear
      = 12 * ([0] : List ℚ).getD 0 0 ∧
    (⟨1, 0, 0, 0, 0, 0, 0, 0, 0, 0⟩ : YearRow).investGrowthYear =
      (monthBalance (rateFor none none 0) (([0] : List ℚ).getD 0 0))^[12]
        ((prevBalances 0 [⟨1, 0, 0, 0, 0, 0, 0, 0, 0, 0⟩]).getD 0 0)
      - (prevBalances 0 [⟨1, 0, 0, 0, 0, 0, 0, 0, 0, 0⟩]).getD 0 0
      - 12 * ([0] : List ℚ).getD 0 0 ∧
    (⟨1, 0, 0, 0, 0, 0, 0, 0, 0, 0⟩ : YearRow).annualExpense
      = ([0] : List ℚ).getD 0 0 ∧
    (⟨1, 0, 0, 0, 0, 0, 0, 0, 0, 0⟩ : YearRow).year = 0 + 1) :=
  ⟨by norm_num [compound_schedule, scheduleRows, yearStep, monthStep, rateFor,
      Function.iterate_succ_apply, Function.iterate_zero_apply], rfl,
   compound_schedule_monthly_substeps 0 1 [0] [0] none none _ 0 _
     (by norm_num [compound_schedule, scheduleRows, yearStep, monthStep, rateFor,
       Function.iterate_succ_apply, Function.iterate_zero_apply]) rfl⟩

/-- C6: every record of `compound_schedule` satisfies the accounting
identity end balance = start-of-year balance + yearly contribution +
yearly growth - yearly expense, where the start-of-year balance of year
0 is the starting balance and of year i+1 is year i's end balance
(consecutive records chain). -/
theorem compound_schedule_balance_recurrence (s : ℚ) (N : ℕ)
    (contrib expense : List ℚ) (ar : Option ℚ) (arby : Option (List ℚ))
    (rows : List YearRow) (i : ℕ) (row : YearRow)
    (h1 : compound_schedule s N contrib expense ar arby = some rows)
    (h2 : rows.get? i = some row) :
    row.balance = (prevBalances s rows).getD i 0
      + row.contribYear + row.investGrowthYear - row.annualExpense := by
  have hr := compound_schedule_rows h1
  subst hr
  have h := scheduleRows_get_spec contrib expense (rateFor ar arby) N 0 ⟨s, 0, 0, 0, 0⟩ i row h2
  simp only [Nat.zero_add] at h
  rw [h.1, h.2.1, h.2.2.1, h.2.2.2.1]
  ring

/-- C6 witness: the accounting identity instantiated on a concrete
one-year simulation with a contribution, an expense and zero rate. -/
theorem compound_schedule_balance_recurrence_instance :
    compound_schedule 5 1 [1] [2] (some 0) none
      = some [⟨1, 15, 12, 12, 0, 0, -2, -2, 2, 2⟩] ∧
    ([(⟨1, 15, 12, 12, 0, 0, -2, -2, 2, 2⟩ : YearRow)].get? 0
      = some ⟨1, 15, 12, 12, 0, 0, -2, -2, 2, 2⟩) ∧
    (⟨1, 15, 12, 12, 0, 0, -2, -2, 2, 2⟩ : YearRow).balance
      = (prevBalances 5 [⟨1, 15, 12, 12, 0, 0, -2, -2, 2, 2⟩]).getD 0 0
        + (⟨1, 15, 12, 12, 0, 0, -2, -2, 2, 2⟩ : YearRow).contribYear
        + (⟨1, 15, 12, 12, 0, 0, -2, -2, 2, 2⟩ : YearRow).investGrowthYear
        - (⟨1, 15, 12, 12, 0, 0, -2, -2, 2, 2⟩ : YearRow).annualExpense :=
  ⟨by norm_num [compound_schedule, scheduleRows, yearStep, monthStep, rateFor,
      Function.iterate_succ_apply, Function.iterate_zero_apply], rfl,
   compound_schedule_balance_recurrence 5 1 [1] [2] (some 0) none _ 0 _
     (by norm_num [compound_schedule, scheduleRows, yearStep, monthStep, rateFor,
       Function.iterate_succ_apply, Function.iterate_zero_apply]) rfl⟩

/-- C2 counterexample: the year-by-year simulation does not clamp at
zero: a first year with no contributions, zero rate and a 100 expense
on a zero starting balance ends at balance -100, strictly below zero,
recorded as such. -/
theorem compound_schedule_can_go_negative :
    (compound_schedule 0 1 [0] [100] (some 0) none).map (finalBalance 0) = some (-100) ∧
    (-100 : ℚ) < 0 :=
  ⟨by norm_num [compound_schedule, scheduleRows, yearStep, monthStep, rateFor, finalBalance,
      Function.iterate_succ_apply, Function.iterate_zero_apply], by norm_num⟩

lemma getD_replicate_of_lt {α : Type} (a d : α) : ∀ (n i : ℕ), i < n →
    (List.replicate n a).getD i d = a := by
  intro n
  induction n with
  | zero => intro i h; omega
  | succ m ih =>
    intro i h
    cases i with
    | zero => rfl
    | succ j =>
      simp only [List.replicate_succ, List.getD_cons_succ]
      exact ih j (by omega)

lemma finalBalance_cons (s : ℚ) (row : YearRow) (rest : List YearRow) :
    finalBalance s (row :: rest) = finalBalance row.balance rest := by
  simp only [finalBalance, List.map_cons, List.getLastD_cons]

lemma monthBalance_iterate_closed (c rr : ℚ) (hr : rr ≠ 0) :
    ∀ (m : ℕ) (b : ℚ),
      (monthBalance rr c)^[m] b
        = b * (1 + rr / 12) ^ m
          + c * (1 + rr / 12) * ((1 + rr / 12) ^ m - 1) / (rr / 12) := by
  have h12 : rr / 12 ≠ 0 := div_ne_zero hr (by norm_num)
  intro m
  induction m with
  | zero => intro b; simp
  | succ n ih =>
    intro b
    rw [Function.iterate_succ_apply', ih b]
    unfold monthBalance
    field_simp
    ring

lemma scheduleRows_final (c rr : ℚ) (N : ℕ) :
    ∀ (k idx : ℕ) (st : SimState), idx + k ≤ N →
      finalBalance st.balance
        (scheduleRows (List.replicate N c) (List.replicate N 0) (fun _ => rr) k idx st)
      = (monthBalance rr c)^[12 * k] st.balance := by
  intro k
  induction k with
  | zero =>
    intro idx st _
    simp [scheduleRows, finalBalance]
  | succ n ih =>
    intro idx st h
    have hidx : idx < N := by omega
    have hc : (List.replicate N c).getD idx 0 = c := getD_replicate_of_lt c 0 N idx hidx
    have he : (List.replicate N (0 : ℚ)).getD idx 0 = 0 := getD_replicate_of_lt 0 0 N idx hidx
    have hun : scheduleRows (List.replicate N c) (List.replicate N 0) (fun _ => rr)
          (n + 1) idx st
        = (yearStep rr ((List.replicate N c).getD idx 0)
            ((List.replicate N (0 : ℚ)).getD idx 0) idx st).2
          :: scheduleRows (List.replicate N c) (List.replicate N 0) (fun _ => rr) n (idx + 1)
            (yearStep rr ((List.replicate N c).getD idx 0)
              ((List.replicate N (0 : ℚ)).getD idx 0) idx st).1 := rfl
    rw [hun, finalBalance_cons]
    have hy := yearStep_spec rr ((List.replicate N c).getD idx 0)
      ((List.replicate N (0 : ℚ)).getD idx 0) idx st
    rw [← hy.2.2.2.2.2]
    rw [ih (idx + 1)
      (yearStep rr ((List.replicate N c).getD idx 0)
        ((List.replicate N (0 : ℚ)).getD idx 0) idx st).1 (by omega)]
    have hb : (yearStep rr ((List.replicate N c).getD idx 0)
          ((List.replicate N (0 : ℚ)).getD idx 0) idx st).1.balance
        = (monthBalance rr c)^[12] st.balance := by
      rw [hy.2.2.2.2.2, hy.1, hc, he, sub_zero]
    rw [hb, ← Function.iterate_add_apply]
    have h12 : 12 * n + 12 = 12 * (n + 1) := by omega
    rw [h12]

/-- C4 amended: with zero expenses, constant nonzero rate rr, constant
monthly contribution c and starting balance s, the ending balance of
`compound_schedule` after N years equals the annuity-due future value
s (1 + rr/12)^(12 N) + c (1 + rr/12) ((1 + rr/12)^(12 N) - 1)/(rr/12):
because each month's contribution is added before growth, the
contribution term carries an extra factor (1 + rr/12) relative to the
ordinary annuity formula the claim states. Exact in rational
arithmetic. -/
theorem compound_schedule_annuity_due_closed_form (s c rr : ℚ) (N : ℕ) (hr : rr ≠ 0) :
    (compound_schedule s N (List.replicate N c) (List.replicate N 0) (some rr) none).map
        (finalBalance s)
      = some (s * (1 + rr / 12) ^ (12 * N)
          + c * (1 + rr / 12) * ((1 + rr / 12) ^ (12 * N) - 1) / (rr / 12)) := by
  have hrate : rateFor (some rr) none = fun _ => rr := funext fun i => rfl
  simp only [compound_schedule, Option.map_some', Option.some.injEq, hrate]
  have hfin := scheduleRows_final c rr N N 0 ⟨s, 0, 0, 0, 0⟩ (by omega)
  have hs : (⟨s, 0, 0, 0, 0⟩ : SimState).balance = s := rfl
  rw [hs] at hfin
  rw [hfin, monthBalance_iterate_closed c rr hr (12 * N) s]

/-- C4 amended witness: the closed form instantiated at a one-year
simulation with contribution 12 and rate 1. -/
theorem compound_schedule_annuity_due_closed_form_instance :
    (1 : ℚ) ≠ 0 ∧
    (compound_schedule 1 1 (List.replicate 1 12) (List.replicate 1 0) (some 1) none).map
        (finalBalance 1)
      = some (1 * (1 + (1 : ℚ) / 12) ^ (12 * 1)
          + 12 * (1 + (1 : ℚ) / 12) * ((1 + (1 : ℚ) / 12) ^ (12 * 1) - 1) / ((1 : ℚ) / 12)) :=
  ⟨by norm_num, compound_schedule_annuity_due_closed_form 1 12 1 1 (by norm_num)⟩

/-- C4 counterexample: at starting balance 0, one year, monthly
contribution 100 and annual rate 12 percent, the simulated ending
balance exceeds the claim's annuity-immediate future-value formula
c ((1 + r/12)^(12 N) - 1)/(r/12) by a full one percent (the factor
1 + r/12), far beyond floating-point tolerance: the formula times 1001
is still smaller than one thousand times the simulated balance. -/
theorem compound_schedule_not_annuity_immediate :
    (0 * (1 + (12 / 100 : ℚ) / 12) ^ (12 * 1)
        + 100 * ((1 + (12 / 100 : ℚ) / 12) ^ (12 * 1) - 1) / ((12 / 100 : ℚ) / 12)) * 1001
      < ((compound_schedule 0 1 [100] [0] (some (12 / 100)) none).map
          (finalBalance 0)).getD 0 * 1000 := by
  have h := compound_schedule_annuity_due_closed_form 0 100 (12 / 100) 1 (by norm_num)
  have hrep : (List.replicate 1 (100 : ℚ)) = [100] := rfl
  have hrep0 : (List.replicate 1 (0 : ℚ)) = [0] := rfl
  rw [hrep, hrep0] at h
  rw [h]
  norm_num

lemma candLoop_some_spec (bmap : ℤ → Option ℚ) (rates : List ℚ) (current_age : ℤ)
    (infl S B extra t : ℚ) (effEnd full_fi : ℤ) (tgt : ℚ) :
    ∀ (k : ℕ) (a : ℤ) (res : BaristaResult),
      candLoop bmap rates current_age infl S B extra t effEnd full_fi tgt k a = some res →
      a ≤ res.age ∧ res.age < a + k ∧ res.fiTarget = tgt ∧ tgt ≤ res.balFullFi := by
  intro k
  induction k with
  | zero =>
    intro a res h
    simp [candLoop] at h
  | succ n ih =>
    intro a res h
    have hun : candLoop bmap rates current_age infl S B extra t effEnd full_fi tgt (n + 1) a
        = match bmap a with
          | none => candLoop bmap rates current_age infl S B extra t effEnd full_fi tgt
              n (a + 1)
          | some bal =>
            match bridgeLoop rates current_age infl S B extra t effEnd
                ((full_fi - a).toNat) a bal 0 1 with
            | none => candLoop bmap rates current_age infl S B extra t effEnd full_fi tgt
                n (a + 1)
            | some pr =>
              if tgt ≤ pr.1 then some ⟨a, bal, pr.1, tgt, full_fi - a, pr.2⟩
              else candLoop bmap rates current_age infl S B extra t effEnd full_fi tgt
                n (a + 1) := rfl
    rw [hun] at h
    have hnext : ∀ res2 : BaristaResult,
        candLoop bmap rates current_age infl S B extra t effEnd full_fi tgt n (a + 1)
          = some res2 →
        a ≤ res2.age ∧ res2.age < a + (n + 1 : ℕ) ∧ res2.fiTarget = tgt ∧
          tgt ≤ res2.balFullFi := by
      intro res2 h2
      have hr := ih (a + 1) res2 h2
      refine ⟨by omega, ?_, hr.2.2.1, hr.2.2.2⟩
      have := hr.2.1
      push_cast at this ⊢
      omega
    split at h
    · exact hnext res h
    · split at h
      · exact hnext res h
      · split at h
        · injection h with h
          subst h
          refine ⟨le_refl _, ?_, rfl, by assumption⟩
          push_cast
          omega
        · exact hnext res h

lemma compute_barista_some_spec {df : List BridgeRow} {current_age : ℤ}
    {S B infl : ℚ} {sr : Bool} {rates : List ℚ} {swr : ℚ} {bea ffa : ℤ} {t extra : ℚ}
    {res : BaristaResult}
    (h : compute_barista_fi_age_bridge df current_age S B infl sr rates swr bea ffa t extra
      = some res) :
    0 < S ∧ 0 < swr ∧ current_age + 1 < ffa ∧
    current_age + 1 ≤ res.age ∧ res.age ≤ ffa ∧
    res.fiTarget = S / swr ∧ res.fiTarget ≤ res.balFullFi := by
  simp only [compute_barista_fi_age_bridge] at h
  by_cases hg : S ≤ 0 ∨ swr ≤ 0
  · rw [if_pos hg] at h; cases h
  · rw [if_neg hg] at h
    push_neg at hg
    by_cases h1 : ffa ≤ current_age + 1
    · rw [if_pos h1] at h; cases h
    · rw [if_neg h1] at h
      by_cases h2 : min bea (ffa - 1) < current_age + 1
      · rw [if_pos h2] at h; cases h
      · rw [if_neg h2] at h
        have hc := candLoop_some_spec (balMap df sr infl) rates current_age infl S B extra
          (clampBridgeTax t) (min bea (ffa - 1)) ffa (S / swr)
          ((ffa + 1 - (current_age + 1)).toNat) (current_age + 1) res h
        have hfuel : ((ffa + 1 - (current_age + 1)).toNat : ℤ) = ffa + 1 - (current_age + 1) :=
          Int.toNat_of_nonneg (by omega)
        refine ⟨hg.1, hg.2, by omega, hc.1, ?_, hc.2.2.1, ?_⟩
        · have := hc.2.1
          omega
        · rw [hc.2.2.1]
          exact hc.2.2.2

/-- C2 amended: the barista/bridge solver never surfaces a depleted
candidate: a running balance that would go negative aborts that
candidate's simulation (without clamping to zero) and the candidate is
skipped as failed, never raised as an error, so any successful solver
result carries an achieved balance at least the strictly positive FI
target. The year-by-year `compound_schedule` itself performs no
clamping and can record negative balances. -/
theorem bridge_depleted_candidates_rejected (df : List BridgeRow) (current_age : ℤ)
    (S B infl : ℚ) (sr : Bool) (rates : List ℚ) (swr : ℚ) (bea ffa : ℤ) (t extra : ℚ)
    (res : BaristaResult)
    (h : compute_barista_fi_age_bridge df current_age S B infl sr rates swr bea ffa t extra
      = some res) :
    res.fiTarget ≤ res.balFullFi ∧ 0 < res.fiTarget := by
  have hc := compute_barista_some_spec h
  refine ⟨hc.2.2.2.2.2.2, ?_⟩
  rw [hc.2.2.2.2.2.1]
  exact div_pos hc.1 hc.2.1

/-- C2 amended witness: a concrete successful bridge run on which the
achieved balance meets the positive target. -/
theorem bridge_depleted_candidates_rejected_instance :
    compute_barista_fi_age_bridge [⟨31, 1, 2⟩] 30 1 1 0 true [0, 0] 1 31 32 0 0
      = some ⟨31, 2, 2, 1, 1, 0⟩ ∧
    ((⟨31, 2, 2, 1, 1, 0⟩ : BaristaResult).fiTarget
        ≤ (⟨31, 2, 2, 1, 1, 0⟩ : BaristaResult).balFullFi ∧
      0 < (⟨31, 2, 2, 1, 1, 0⟩ : BaristaResult).fiTarget) := by
  have he : compute_barista_fi_age_bridge [⟨31, 1, 2⟩] 30 1 1 0 true [0, 0] 1 31 32 0 0
      = some ⟨31, 2, 2, 1, 1, 0⟩ := by
    norm_num [compute_barista_fi_age_bridge, candLoop, bridgeLoop, balMap, realBalance,
      clampBridgeTax, spendFromPortfolio, grossUpWithdrawal]
  exact ⟨he, bridge_depleted_candidates_rejected [⟨31, 1, 2⟩] 30 1 1 0 true [0, 0] 1 31 32 0 0
    ⟨31, 2, 2, 1, 1, 0⟩ he⟩

/-- C7 counterexample: part-time income equal to the target spend does
not make the barista solver return the current age immediately: with
current age 30, spend = part-time income = 40000, a trajectory whose
only candidate balance is 0 and full FI age 40, the solver returns the
all-None not-reached result, not age 30. -/
theorem barista_gap_zero_not_immediate :
    compute_barista_fi_age_bridge [⟨31, 1, 0⟩] 30 40000 40000 0 true
      (List.replicate 10 0) (1 / 25) 39 40 0 0 = none := by
  norm_num [compute_barista_fi_age_bridge, candLoop, bridgeLoop, balMap, realBalance,
    clampBridgeTax, spendFromPortfolio, grossUpWithdrawal, List.replicate]

/-- C7 amended: when the part-time income equals the target spend the
per-year portfolio need during the barista phase is zero (before extra
health costs), but the solver does not return the current age
unconditionally: candidates are scanned from current_age + 1 up to the
full FI age, any returned age lies in that interval, and the projected
balance at full FI age must still meet the FI target, so an
insufficient portfolio yields a not-reached result. -/
theorem barista_gap_zero_scan_behavior (df : List BridgeRow) (current_age : ℤ)
    (S B infl : ℚ) (sr : Bool) (rates : List ℚ) (swr : ℚ) (bea ffa : ℤ) (t extra : ℚ)
    (hBS : B = S) :
    (∀ age effEnd : ℤ, age ≤ effEnd → spendFromPortfolio S B age effEnd = 0) ∧
    (∀ res : BaristaResult,
      compute_barista_fi_age_bridge df current_age S B infl sr rates swr bea ffa t extra
        = some res →
      current_age + 1 ≤ res.age ∧ res.age ≤ ffa ∧ res.fiTarget ≤ res.balFullFi) := by
  constructor
  · intro age effEnd hle
    simp [spendFromPortfolio, if_pos hle, hBS]
  · intro res h
    have hc := compute_barista_some_spec h
    refine ⟨hc.2.2.2.1, hc.2.2.2.2.1, hc.2.2.2.2.2.2⟩

/-- C7 amended witness: a concrete gap-zero run in which the solver
returns current_age + 1, not the current age. -/
theorem barista_gap_zero_scan_behavior_instance :
    (1 : ℚ) = 1 ∧
    (spendFromPortfolio 1 1 31 31 = 0 ∧
      (compute_barista_fi_age_bridge [⟨31, 1, 2⟩] 30 1 1 0 true [0, 0] 1 31 32 0 0
          = some ⟨31, 2, 2, 1, 1, 0⟩ →
        30 + 1 ≤ (⟨31, 2, 2, 1, 1, 0⟩ : BaristaResult).age ∧
        (⟨31, 2, 2, 1, 1, 0⟩ : BaristaResult).age ≤ 32 ∧
        (⟨31, 2, 2, 1, 1, 0⟩ : BaristaResult).fiTarget
          ≤ (⟨31, 2, 2, 1, 1, 0⟩ : BaristaResult).balFullFi)) :=
  ⟨rfl,
   (barista_gap_zero_scan_behavior [⟨31, 1, 2⟩] 30 1 1 0 true [0, 0] 1 31 32 0 0 rfl).1
     31 31 le_rfl,
   fun h => (barista_gap_zero_scan_behavior [⟨31, 1, 2⟩] 30 1 1 0 true [0, 0] 1 31 32 0 0
     rfl).2 ⟨31, 2, 2, 1, 1, 0⟩ h⟩

/-- C3 counterexample: the bridge-year simulation applies the same flat
rate at every age; it does not switch to a distinct early-withdrawal
rate below age 60. On a two-year bridge over ages 59 and 60 with flat
rate 20 percent, the source loop differs from the specification's model
instantiated with a 50 percent early-withdrawal rate below 60. -/
theorem bridge_gross_up_ignores_age_sixty :
    bridgeLoop [0, 0, 0] 58 0 100 0 0 (1 / 5) 58 2 59 1000 0 1
      ≠ bridgeLoopSpecModel [0, 0, 0] 58 0 100 0 0 (1 / 5) (1 / 2) 58 2 59 1000 0 1 := by
  have h1 : Int.toNat 1 = 1 := rfl
  have h2 : Int.toNat 2 = 2 := rfl
  norm_num [bridgeLoop, bridgeLoopSpecModel, bridgeRateSpecModel, spendFromPortfolio,
    grossUpWithdrawal, h1, h2, List.getElem_cons_succ, List.getElem_cons_zero]

/-- C3 amended: in every bridge year the withdrawal is grossed up with
the single clamped flat rate t at every age (the source bridge loop
coincides with the specification's model only when the early-withdrawal
rate is set equal to the flat rate; there is no age-60 threshold), and
whenever 0 < t < 1 the gross-up makes the net amount received equal the
real need: grossUpWithdrawal need t times (1 - t) is need. -/
theorem bridge_gross_up_flat_rate_all_ages (rates : List ℚ) (current_age : ℤ)
    (infl S B extra t : ℚ) (effEnd : ℤ) :
    (∀ (k : ℕ) (age : ℤ) (bal pv disc : ℚ),
      bridgeLoop rates current_age infl S B extra t effEnd k age bal pv disc
        = bridgeLoopSpecModel rates current_age infl S B extra t t effEnd k age bal pv disc) ∧
    (0 < t → t < 1 → ∀ need : ℚ, grossUpWithdrawal need t * (1 - t) = need) := by
  constructor
  · intro k
    induction k with
    | zero => intro age bal pv disc; rfl
    | succ n ih =>
      intro age bal pv disc
      have hrate : bridgeRateSpecModel t t age = t := by
        unfold bridgeRateSpecModel
        split <;> rfl
      show (if age - current_age < 0 ∨ (rates.length : ℤ) ≤ age - current_age then none
          else
            if bal - grossUpWithdrawal (spendFromPortfolio S B age effEnd + max extra 0) t < 0
            then none
            else bridgeLoop rates current_age infl S B extra t effEnd n (age + 1)
              ((bal - grossUpWithdrawal (spendFromPortfolio S B age effEnd + max extra 0) t)
                * (1 + (if 0 < infl then (1 + rates.getD (age - current_age).toNat 0)
                    / (1 + infl) - 1 else rates.getD (age - current_age).toNat 0)))
              (pv + (spendFromPortfolio S B age effEnd + max extra 0) / disc)
              (disc * (1 + (if 0 < infl then (1 + rates.getD (age - current_age).toNat 0)
                / (1 + infl) - 1 else rates.getD (age - current_age).toNat 0))))
        = bridgeLoopSpecModel rates current_age infl S B extra t t effEnd (n + 1) age bal pv disc
      rw [show bridgeLoopSpecModel rates current_age infl S B extra t t effEnd (n + 1)
            age bal pv disc
          = (if age - current_age < 0 ∨ (rates.length : ℤ) ≤ age - current_age then none
            else
              if bal - grossUpWithdrawal (spendFromPortfolio S B age effEnd + max extra 0)
                  (bridgeRateSpecModel t t age) < 0
              then none
              else bridgeLoopSpecModel rates current_age infl S B extra t t effEnd n (age + 1)
                ((bal - grossUpWithdrawal (spendFromPortfolio S B age effEnd + max extra 0)
                    (bridgeRateSpecModel t t age))
                  * (1 + (if 0 < infl then (1 + rates.getD (age - current_age).toNat 0)
                      / (1 + infl) - 1 else rates.getD (age - current_age).toNat 0)))
                (pv + (spendFromPortfolio S B age effEnd + max extra 0) / disc)
                (disc * (1 + (if 0 < infl then (1 + rates.getD (age - current_age).toNat 0)
                  / (1 + infl) - 1 else rates.getD (age - current_age).toNat 0))))
          from rfl]
      rw [hrate]
      split
      · rfl
      · split
        · rfl
        · rw [ih]
  · intro ht h1 need
    have hne : (1 : ℚ) - t ≠ 0 := sub_ne_zero.mpr (ne_of_gt (by linarith))
    simp only [grossUpWithdrawal, if_pos ht]
    exact div_mul_cancel₀ need hne

/-- C3 amended witness: the flat-rate equality and the net-equals-need
identity instantiated at concrete inputs. -/
theorem bridge_gross_up_flat_rate_all_ages_instance :
    bridgeLoop [0] 50 0 10 0 0 (1 / 5) 49 1 50 100 0 1
      = bridgeLoopSpecModel [0] 50 0 10 0 0 (1 / 5) (1 / 5) 49 1 50 100 0 1 ∧
    0 < (1 / 5 : ℚ) ∧ (1 / 5 : ℚ) < 1 ∧
    grossUpWithdrawal 10 (1 / 5) * (1 - 1 / 5) = 10 :=
  ⟨(bridge_gross_up_flat_rate_all_ages [0] 50 0 10 0 0 (1 / 5) 49).1 1 50 100 0 1,
   by norm_num, by norm_num,
   (bridge_gross_up_flat_rate_all_ages [0] 50 0 10 0 0 (1 / 5) 49).2
     (by norm_num) (by norm_num) 10⟩

/-- C9: a non-positive target annual spend or non-positive base
withdrawal rate makes both solvers return the all-None not-reached
result from their guard, before any arithmetic on the rate is
performed, so no division by zero can occur and nothing is raised; in
this total embedding every other input likewise returns a value rather
than an exception. -/
theorem solvers_none_on_nonpositive_inputs (dfF : List FiRow) (dfB : List BridgeRow)
    (S swr : ℚ) (inflF : ℝ) (srF : Bool) (H : ℤ) (current_age : ℤ) (B inflB : ℚ)
    (srB : Bool) (rates : List ℚ) (bea ffa : ℤ) (t extra : ℚ)
    (h : S ≤ 0 ∨ swr ≤ 0) :
    compute_fi_age_horizon dfF (S : ℝ) inflF srF (swr : ℝ) H = none ∧
    compute_barista_fi_age_bridge dfB current_age S B inflB srB rates swr bea ffa t extra
      = none := by
  constructor
  · have hc : (S : ℝ) ≤ 0 ∨ (swr : ℝ) ≤ 0 := by
      rcases h with h | h
      · exact Or.inl (by exact_mod_cast h)
      · exact Or.inr (by exact_mod_cast h)
    simp only [compute_fi_age_horizon, if_pos hc]
  · simp only [compute_barista_fi_age_bridge, if_pos h]

/-- C9 witness: the guard instantiated at a zero spend. -/
theorem solvers_none_on_nonpositive_inputs_instance :
    ((0 : ℚ) ≤ 0 ∨ (1 : ℚ) ≤ 0) ∧
    (compute_fi_age_horizon [] ((0 : ℚ) : ℝ) 0 true ((1 : ℚ) : ℝ) 90 = none ∧
      compute_barista_fi_age_bridge [] 30 0 0 0 true [] 1 31 40 0 0 = none) :=
  ⟨Or.inl le_rfl,
   solvers_none_on_nonpositive_inputs [] [] 0 1 0 true 90 30 0 0 true [] 31 40 0 0
     (Or.inl le_rfl)⟩

lemma clampBridgeTax_idem (t : ℚ) : clampBridgeTax (clampBridgeTax t) = clampBridgeTax t := by
  unfold clampBridgeTax
  have h0 : (0 : ℚ) ≤ max 0 (min t (7 / 10)) := le_max_left 0 _
  have h7 : max 0 (min t (7 / 10)) ≤ 7 / 10 := max_le (by norm_num) (min_le_right _ _)
  rw [min_eq_left h7, max_eq_right h0]

/-- C10: the bridge tax rate is clamped to the band [0, 0.7] before any
use, so the gross-up divisor 1 - t is at least 0.3 and never zero; a
requested rate of 70 percent or more is silently treated as exactly 70
percent, and running the solver on any rate equals running it on the
clamped rate. -/
theorem bridge_tax_rate_clamped (t : ℚ) :
    (0 ≤ clampBridgeTax t ∧ clampBridgeTax t ≤ 7 / 10 ∧ 3 / 10 ≤ 1 - clampBridgeTax t) ∧
    (7 / 10 ≤ t → clampBridgeTax t = 7 / 10) ∧
    (∀ (df : List BridgeRow) (current_age : ℤ) (S B infl : ℚ) (sr : Bool)
        (rates : List ℚ) (swr : ℚ) (bea ffa : ℤ) (extra : ℚ),
      compute_barista_fi_age_bridge df current_age S B infl sr rates swr bea ffa t extra
        = compute_barista_fi_age_bridge df current_age S B infl sr rates swr bea ffa
            (clampBridgeTax t) extra) := by
  have h0 : (0 : ℚ) ≤ clampBridgeTax t := le_max_left 0 _
  have h7 : clampBridgeTax t ≤ 7 / 10 := max_le (by norm_num) (min_le_right _ _)
  refine ⟨⟨h0, h7, by linarith⟩, ?_, ?_⟩
  · intro ht
    unfold clampBridgeTax
    rw [min_eq_right ht]
    norm_num
  · intro df current_age S B infl sr rates swr bea ffa extra
    simp only [compute_barista_fi_age_bridge, clampBridgeTax_idem]

/-- C10 witness: a requested 90 percent rate is treated as 70 percent,
the divisor stays at least 0.3, and the solver agrees with its clamped
run on a concrete input. -/
theorem bridge_tax_rate_clamped_instance :
    (0 ≤ clampBridgeTax (9 / 10) ∧ clampBridgeTax (9 / 10) ≤ 7 / 10 ∧
      3 / 10 ≤ 1 - clampBridgeTax (9 / 10)) ∧
    clampBridgeTax (9 / 10) = 7 / 10 ∧
    compute_barista_fi_age_bridge [] 30 1 0 0 true [] 1 31 40 (9 / 10) 0
      = compute_barista_fi_age_bridge [] 30 1 0 0 true [] 1 31 40 (clampBridgeTax (9 / 10)) 0 :=
  ⟨(bridge_tax_rate_clamped (9 / 10)).1,
   (bridge_tax_rate_clamped (9 / 10)).2.1 (by norm_num),
   (bridge_tax_rate_clamped (9 / 10)).2.2 [] 30 1 0 0 true [] 1 31 40 0⟩

/-- C8: for every horizon of at least one year and every base rate, the
adjusted SWR equals the base rate scaled by sqrt(30 / horizon), clamped
to the band [0.025, 0.05], and a longer remaining horizon never yields
a higher withdrawal rate. -/
theorem adjusted_swr_for_horizon_formula_antitone (h h2 b : ℝ)
    (h1 : 1 ≤ h) (hle : h ≤ h2) :
    adjusted_swr_for_horizon h b
      = max 0.025 (min 0.05 (b * Real.sqrt (30 / h))) ∧
    adjusted_swr_for_horizon h2 b ≤ adjusted_swr_for_horizon h b := by
  have hmh : max h 1 = h := max_eq_left h1
  have hmh2 : max h2 1 = h2 := max_eq_left (le_trans h1 hle)
  constructor
  · unfold adjusted_swr_for_horizon
    rw [hmh]
  · unfold adjusted_swr_for_horizon
    rw [hmh, hmh2]
    rcases le_or_lt 0 b with hb | hb
    · have h0 : (0 : ℝ) < h := lt_of_lt_of_le one_pos h1
      have hd : 30 / h2 ≤ 30 / h := by
        apply div_le_div_of_nonneg_left (by norm_num) h0 hle
      have hs : Real.sqrt (30 / h2) ≤ Real.sqrt (30 / h) := Real.sqrt_le_sqrt hd
      have hm : b * Real.sqrt (30 / h2) ≤ b * Real.sqrt (30 / h) :=
        mul_le_mul_of_nonneg_left hs hb
      exact max_le_max le_rfl (min_le_min le_rfl hm)
    · have hr1 : b * Real.sqrt (30 / h) ≤ 0 :=
        mul_nonpos_of_nonpos_of_nonneg (le_of_lt hb) (Real.sqrt_nonneg _)
      have hr2 : b * Real.sqrt (30 / h2) ≤ 0 :=
        mul_nonpos_of_nonpos_of_nonneg (le_of_lt hb) (Real.sqrt_nonneg _)
      rw [min_eq_right (le_trans hr1 (by norm_num)),
        min_eq_right (le_trans hr2 (by norm_num)),
        max_eq_left (le_trans hr1 (by norm_num)),
        max_eq_left (le_trans hr2 (by norm_num))]

/-- C8 witness: the formula and the antitone comparison instantiated at
horizons 30 and 60 with base rate 0.04. -/
theorem adjusted_swr_for_horizon_formula_antitone_instance :
    (1 : ℝ) ≤ 30 ∧ (30 : ℝ) ≤ 60 ∧
    (adjusted_swr_for_horizon 30 0.04
        = max 0.025 (min 0.05 ((0.04 : ℝ) * Real.sqrt (30 / 30))) ∧
      adjusted_swr_for_horizon 60 0.04 ≤ adjusted_swr_for_horizon 30 0.04) :=
  ⟨by norm_num, by norm_num,
   adjusted_swr_for_horizon_formula_antitone 30 60 0.04 (by norm_num) (by norm_num)⟩

lemma fiScan_spec (S infl : ℝ) (sr : Bool) (b : ℝ) (H : ℤ) :
    ∀ df : List FiRow,
      (∀ res, fiScan S infl sr b H df = some res →
        ∃ pre r post, df = pre ++ r :: post ∧ fiOk S infl sr b H r ∧
          res = mkFiResult S infl sr b H r ∧ ∀ p ∈ pre, ¬ fiOk S infl sr b H p) ∧
      (fiScan S infl sr b H df = none → ∀ q ∈ df, ¬ fiOk S infl sr b H q) := by
  intro df
  induction df with
  | nil =>
    constructor
    · intro res h
      simp [fiScan] at h
    · intro _ q hq
      simp at hq
  | cons r rest ih =>
    by_cases h1 : H ≤ r.age
    · have hnot : ¬ fiOk S infl sr b H r := fun hok => absurd hok.1 (not_lt.mpr h1)
      have hun : fiScan S infl sr b H (r :: rest) = fiScan S infl sr b H rest := by
        simp only [fiScan, if_pos h1]
      constructor
      · intro res h
        rw [hun] at h
        obtain ⟨pre, r2, post, hsplit, hok, hres, hpre⟩ := ih.1 res h
        refine ⟨r :: pre, r2, post, by rw [hsplit]; rfl, hok, hres, ?_⟩
        intro p hp
        rcases List.mem_cons.mp hp with hpr | hp2
        · rw [hpr]; exact hnot
        · exact hpre p hp2
      · intro h q hq
        rw [hun] at h
        rcases List.mem_cons.mp hq with hqr | hq2
        · rw [hqr]; exact hnot
        · exact ih.2 h q hq2
    · by_cases h2 : fiRequired S infl sr b H r ≤ r.balance
      · have hok : fiOk S infl sr b H r := ⟨not_le.mp h1, h2⟩
        have hun : fiScan S infl sr b H (r :: rest)
            = some (mkFiResult S infl sr b H r) := by
          simp only [fiScan, if_neg h1, if_pos h2]
        constructor
        · intro res h
          rw [hun] at h
          injection h with h
          exact ⟨[], r, rest, rfl, hok, h.symm, fun p hp => absurd hp (List.not_mem_nil p)⟩
        · intro h
          rw [hun] at h
          cases h
      · have hnot : ¬ fiOk S infl sr b H r := fun hok => h2 hok.2
        have hun : fiScan S infl sr b H (r :: rest) = fiScan S infl sr b H rest := by
          simp only [fiScan, if_neg h1, if_neg h2]
        constructor
        · intro res h
          rw [hun] at h
          obtain ⟨pre, r2, post, hsplit, hok, hres, hpre⟩ := ih.1 res h
          refine ⟨r :: pre, r2, post, by rw [hsplit]; rfl, hok, hres, ?_⟩
          intro p hp
          rcases List.mem_cons.mp hp with hpr | hp2
          · rw [hpr]; exact hnot
          · exact hpre p hp2
        · intro h q hq
          rw [hun] at h
          rcases List.mem_cons.mp hq with hqr | hq2
          · rw [hqr]; exact hnot
          · exact ih.2 h q hq2

/-- C1: with a positive spend and positive base rate, the regular-FI
solver returns exactly the first row of the trajectory (in scan order)
whose age is below the horizon and whose balance meets or exceeds the
required wealth — every earlier row fails the test — and, when ages are
strictly increasing along the trajectory, that row's age is the
youngest successful age; when no scanned row meets its target the
solver returns the all-None not-reached result, and conversely. -/
theorem compute_fi_age_horizon_first_match (df : List FiRow) (S infl : ℝ) (sr : Bool)
    (b : ℝ) (H : ℤ) (hS : 0 < S) (hb : 0 < b) :
    (∀ res, compute_fi_age_horizon df S infl sr b H = some res →
      ∃ pre r post, df = pre ++ r :: post ∧ fiOk S infl sr b H r ∧
        res = mkFiResult S infl sr b H r ∧ (∀ p ∈ pre, ¬ fiOk S infl sr b H p) ∧
        (List.Pairwise (fun x y : FiRow => x.age < y.age) df →
          ∀ q ∈ df, fiOk S infl sr b H q → r.age ≤ q.age)) ∧
    (compute_fi_age_horizon df S infl sr b H = none →
      ∀ q ∈ df, ¬ fiOk S infl sr b H q) := by
  have hg : ¬ (S ≤ 0 ∨ b ≤ 0) := by push_neg; exact ⟨hS, hb⟩
  have hun : compute_fi_age_horizon df S infl sr b H = fiScan S infl sr b H df := by
    simp only [compute_fi_age_horizon, if_neg hg]
  constructor
  · intro res h
    rw [hun] at h
    obtain ⟨pre, r, post, hsplit, hok, hres, hpre⟩ := (fiScan_spec S infl sr b H df).1 res h
    refine ⟨pre, r, post, hsplit, hok, hres, hpre, ?_⟩
    intro hpw q hq hqok
    rw [hsplit] at hq hpw
    rcases List.mem_append.mp hq with hq1 | hq2
    · exact absurd hqok (hpre q hq1)
    · rcases List.mem_cons.mp hq2 with hqr | hq3
      · rw [hqr]
      · have hp2 := (List.pairwise_append.mp hpw).2.1
        exact le_of_lt ((List.pairwise_cons.mp hp2).1 q hq3)
  · intro h
    rw [hun] at h
    exact (fiScan_spec S infl sr b H df).2 h

/-- C1 witness: the first-match characterization instantiated at a
concrete positive spend and rate. -/
theorem compute_fi_age_horizon_first_match_instance :
    0 < (1 : ℝ) ∧ 0 < (1 : ℝ) ∧
    ((∀ res, compute_fi_age_horizon [] 1 0 true 1 90 = some res →
        ∃ pre r post, ([] : List FiRow) = pre ++ r :: post ∧ fiOk 1 0 true 1 90 r ∧
          res = mkFiResult 1 0 true 1 90 r ∧ (∀ p ∈ pre, ¬ fiOk 1 0 true 1 90 p) ∧
          (List.Pairwise (fun x y : FiRow => x.age < y.age) [] →
            ∀ q ∈ ([] : List FiRow), fiOk 1 0 true 1 90 q → r.age ≤ q.age)) ∧
      (compute_fi_age_horizon [] 1 0 true 1 90 = none →
        ∀ q ∈ ([] : List FiRow), ¬ fiOk 1 0 true 1 90 q)) :=
  ⟨by norm_num, by norm_num,
   compute_fi_age_horizon_first_match [] 1 0 true 1 90 (by norm_num) (by norm_num)⟩
